import Mathlib

/-!
Verification development for a voxel-game first-person controller.

The definitions below are a shallow embedding of `src/player.py` and
`src/hotbar.py`.  Real-valued quantities of the program are modelled as
rationals; the external math library (`math.sqrt`, `math.sin`, `math.cos`,
`math.radians`) is modelled as an opaque record of functions passed to the
controller, exactly as the program calls it.  The voxel world itself
(`voxel.py`, `world.py`) is not part of the sources; following the spec it is
modelled as a total map from integer cells to block types, and the raycaster
is passed in as a parameter of each tick (the program queries it through
`world.raycast_block`).
-/

namespace MC

/-- Modelled from the spec: the block enumeration of `voxel.py` (file not under
`src/`): "an enumerated value from a closed set {AIR, GRASS, DIRT, STONE,
WOOD, SAND, COBBLESTONE, PLANKS, LEAVES}; AIR is the distinguished empty
value". -/
inductive BlockType where
  | AIR
  | GRASS
  | DIRT
  | STONE
  | WOOD
  | SAND
  | COBBLESTONE
  | PLANKS
  | LEAVES
deriving DecidableEq, Repr

/-- A voxel-grid cell, addressed by integer block coordinates. -/
abbrev Cell : Type := ℤ × ℤ × ℤ

/-- Modelled from the spec: the world grid of `world.py` (file not under
`src/`): "`get_block(x, y, z)` never fails; returns AIR for coordinates in
unloaded chunks", so the whole grid is one total map from cells to blocks. -/
def World : Type := Cell → BlockType

/-- Modelled from the spec: `World.get_block` resolves a cell in the map. -/
def World.get_block (w : World) (x y z : ℤ) : BlockType := w (x, y, z)

/-- Modelled from the spec: `World.set_block` "writes into the owning chunk";
on the map model it is a pointwise update. -/
def World.set_block (w : World) (c : Cell) (b : BlockType) : World :=
  fun c2 => if c2 = c then b else w c2

/-- `get_block(int(math.floor(x)), int(math.floor(y)), int(math.floor(z)))`,
the sampling pattern used everywhere in `player.py`. -/
def blockAt (w : World) (x y z : ℚ) : BlockType :=
  w.get_block ⌊x⌋ ⌊y⌋ ⌊z⌋

/-- Python `int()` applied to a nonnegative-or-negative rational: truncation
toward zero. -/
def pyInt (q : ℚ) : ℤ := if 0 ≤ q then ⌊q⌋ else ⌈q⌉

/-- The external math library (`math.sqrt`, `math.sin`, `math.cos`,
`math.radians`) as called by `player.py`; opaque functions on the rational
model of floats. -/
structure MathFns where
  sqrt : ℚ → ℚ
  sin : ℚ → ℚ
  cos : ℚ → ℚ
  radians : ℚ → ℚ

/-- The hotbar state of `hotbar.py`: only `selected_index` matters to the
block-selection contract. -/
structure Hotbar where
  selectedIndex : ℤ
deriving DecidableEq, Repr

/-- `HOTBAR_BLOCKS` from `hotbar.py`: the eight placeable block types. -/
def HOTBAR_BLOCKS : List BlockType :=
  [BlockType.GRASS, BlockType.DIRT, BlockType.STONE, BlockType.WOOD,
   BlockType.SAND, BlockType.COBBLESTONE, BlockType.PLANKS, BlockType.LEAVES]

/-- `Hotbar.get_selected_block`: `HOTBAR_BLOCKS[self.selected_index]`. -/
def Hotbar.get_selected_block (h : Hotbar) : BlockType :=
  HOTBAR_BLOCKS.getD h.selectedIndex.toNat BlockType.AIR

/-- `Hotbar.select_slot`: guarded by `0 <= index < len(HOTBAR_BLOCKS)`. -/
def Hotbar.select_slot (h : Hotbar) (index : ℤ) : Hotbar :=
  if 0 ≤ index ∧ index < (HOTBAR_BLOCKS.length : ℤ) then
    { h with selectedIndex := index }
  else h

/-- The mutable player fields of `player.py` that the per-tick handlers read
and write (position, look angles, vertical velocity, grounded flag, the two
cooldowns, the breaking state, the crack-overlay entity state, and the
optional hotbar reference). -/
structure PlayerState where
  px : ℚ
  py : ℚ
  pz : ℚ
  rotY : ℚ
  pitch : ℚ
  velY : ℚ
  grounded : Bool
  clickCooldown : ℚ
  stuckCooldown : ℚ
  breakingBlock : Option Cell
  breakingProgress : ℚ
  crackEnabled : Bool
  crackStage : ℤ
  crackX : ℚ
  crackY : ℚ
  crackZ : ℚ
  hotbar : Option Hotbar

/-- The per-tick inputs of `player.py`'s `update`: frame time `time.dt`, the
pointer-lock state, the pointer deltas `mouse.velocity`, the held keys, and
the raycaster `world.raycast_block` at this tick's camera pose (a function of
the current world, returning the hit cell and the place cell). -/
structure Input where
  dt : ℚ
  mouseLocked : Bool
  mvx : ℚ
  mvy : ℚ
  keyW : Bool
  keyA : Bool
  keyS : Bool
  keyD : Bool
  space : Bool
  leftMouse : Bool
  rightMouse : Bool
  ray : World → Option (Cell × Cell)

/-- `self.speed = 5.0`. -/
def speed : ℚ := 5
/-- `self.jump_height = 1.5`. -/
def jump_height : ℚ := 3 / 2
/-- `self.gravity = 25.0`. -/
def gravity : ℚ := 25
/-- `self.height = 1.8`. -/
def height : ℚ := 9 / 5
/-- `self._break_time = 0.5`. -/
def break_time : ℚ := 1 / 2
/-- `self._crack_stages = 4`. -/
def crack_stages : ℤ := 4
/-- `half_width = 0.2` in `_check_collision`. -/
def half_width : ℚ := 1 / 5

/-- `_unstick_from_blocks`: the three torso samples 0.1, 0.5, 1.0 above the
body position; on the first solid one, teleport to `floor(y + check_y) + 1.01`
and zero the vertical velocity. -/
def unstick_from_blocks (w : World) (p : PlayerState) : PlayerState :=
  if blockAt w p.px (p.py + 1/10) p.pz ≠ BlockType.AIR then
    { p with py := (⌊p.py + 1/10⌋ : ℚ) + 101/100, velY := 0 }
  else if blockAt w p.px (p.py + 1/2) p.pz ≠ BlockType.AIR then
    { p with py := (⌊p.py + 1/2⌋ : ℚ) + 101/100, velY := 0 }
  else if blockAt w p.px (p.py + 1) p.pz ≠ BlockType.AIR then
    { p with py := (⌊p.py + 1⌋ : ℚ) + 101/100, velY := 0 }
  else p

/-- `_handle_mouse_look`: yaw accumulates `mouse.velocity[0] * 40`, pitch
accumulates `-mouse.velocity[1] * 40` and is clamped to `[-90, 90]`. -/
def handle_mouse_look (inp : Input) (p : PlayerState) : PlayerState :=
  if inp.mouseLocked = false then p
  else
    { p with
      rotY := p.rotY + inp.mvx * 40,
      pitch := max (-90) (min 90 (p.pitch - inp.mvy * 40)) }

/-- The eleven sample offsets of `_check_collision`. -/
def collision_offsets : List (ℚ × ℚ × ℚ) :=
  [(0, 1/10, 0), (0, 1/2, 0),
   (half_width, 7/10, 0), (-half_width, 7/10, 0),
   (0, 7/10, half_width), (0, 7/10, -half_width),
   (half_width, 13/10, 0), (-half_width, 13/10, 0),
   (0, 13/10, half_width), (0, 13/10, -half_width),
   (0, height - 1/20, 0)]

/-- `_check_collision`: true when any sample offset around the candidate
position lands in a non-AIR cell. -/
def check_collision (w : World) (x y z : ℚ) : Bool :=
  collision_offsets.any fun o =>
    decide (blockAt w (x + o.1) (y + o.2.1) (z + o.2.2) ≠ BlockType.AIR)

/-- `v.length()` of a vector, as the math library computes it. -/
def vec_length (m : MathFns) (x y z : ℚ) : ℚ := m.sqrt (x*x + y*y + z*z)

/-- `v.normalized()`: scale by the reciprocal length, identity on a
zero-length vector. -/
def normalized (m : MathFns) (x y z : ℚ) : ℚ × ℚ × ℚ :=
  let l := vec_length m x y z
  if l = 0 then (x, y, z) else (x / l, y / l, z / l)

/-- The raw key-input direction `(d - a, w - s)` of `_handle_movement`. -/
def move_dir (inp : Input) : ℚ × ℚ :=
  ((if inp.keyD then 1 else 0) - (if inp.keyA then 1 else 0),
   (if inp.keyW then 1 else 0) - (if inp.keyS then 1 else 0))

/-- The world-space `(velocity.x, velocity.z)` of `_handle_movement`: the
normalized input direction rotated by yaw, scaled by `speed · dt`. -/
def move_velocity (m : MathFns) (inp : Input) (p : PlayerState) : ℚ × ℚ :=
  let md := normalized m (move_dir inp).1 0 (move_dir inp).2
  let fx := m.sin (m.radians p.rotY)
  let fz := m.cos (m.radians p.rotY)
  let rx := m.sin (m.radians (p.rotY + 90))
  let rz := m.cos (m.radians (p.rotY + 90))
  let wd := normalized m (fx * md.2.2 + rx * md.1) 0 (fz * md.2.2 + rz * md.1)
  (wd.1 * speed * inp.dt, wd.2.2 * speed * inp.dt)

/-- `_handle_movement`: axis-separated horizontal movement with collision,
followed by the rate-limited upward anti-stuck nudge. -/
def handle_movement (m : MathFns) (inp : Input) (w : World) (p : PlayerState) :
    PlayerState :=
  if vec_length m (move_dir inp).1 0 (move_dir inp).2 = 0 then p
  else
    let vx := (move_velocity m inp p).1
    let vz := (move_velocity m inp p).2
    let cX := check_collision w (p.px + vx) p.py p.pz
    let p1 := if cX then p else { p with px := p.px + vx }
    let cZ := check_collision w p1.px p1.py (p1.pz + vz)
    let p2 := if cZ then p1 else { p1 with pz := p1.pz + vz }
    if cX && cZ && p2.grounded && decide (p2.stuckCooldown ≤ 0) then
      if check_collision w p2.px (p2.py + 1/2) p2.pz then p2
      else { p2 with py := p2.py + 1/2, stuckCooldown := 1/2 }
    else p2

/-- The grounded probe of `_handle_gravity`: is the cell 0.1 below the body
position solid? -/
def ground_check (w : World) (p : PlayerState) : Bool :=
  decide (blockAt w p.px (p.py - 1/10) p.pz ≠ BlockType.AIR)

/-- The velocity/grounded pipeline at the top of `_handle_gravity`: grounded
probe, jump impulse `sqrt(2 · gravity · jump_height)`, then either the
grounded clamp `max 0` or the gravity integration `- gravity · dt`. -/
def gravity_vel (m : MathFns) (inp : Input) (w : World) (p : PlayerState) :
    ℚ × Bool :=
  let g0 := ground_check w p
  let vg : ℚ × Bool :=
    if g0 && inp.space then (m.sqrt (2 * gravity * jump_height), false)
    else (p.velY, g0)
  if vg.2 then (max 0 vg.1, true) else (vg.1 - gravity * inp.dt, false)

/-- `_handle_gravity`: velocity pipeline, then vertical displacement with the
head check when moving up and the feet check (snap to `floor(new_y) + 1`,
zero velocity, grounded) when moving down. -/
def handle_gravity (m : MathFns) (inp : Input) (w : World) (p : PlayerState) :
    PlayerState :=
  let vg := gravity_vel m inp w p
  let newY := p.py + vg.1 * inp.dt
  if vg.1 > 0 then
    if blockAt w p.px (newY + height) p.pz ≠ BlockType.AIR then
      { p with velY := 0, grounded := vg.2 }
    else { p with py := newY, velY := vg.1, grounded := vg.2 }
  else
    if blockAt w p.px newY p.pz ≠ BlockType.AIR then
      { p with py := (⌊newY⌋ : ℚ) + 1, velY := 0, grounded := true }
    else { p with py := newY, velY := vg.1, grounded := vg.2 }

/-- `_reset_breaking`: clear the tracked target, the progress, and disable the
crack overlay. -/
def reset_breaking (p : PlayerState) : PlayerState :=
  { p with breakingBlock := none, breakingProgress := 0, crackEnabled := false }

/-- `_update_crack_overlay`: enable the overlay, center it on the target
block, and select the crack stage `min(int(progress * stages), stages - 1)`. -/
def update_crack_overlay (p : PlayerState) (c : Cell) : PlayerState :=
  { p with
    crackEnabled := true,
    crackX := (c.1 : ℚ) + 1/2,
    crackY := (c.2.1 : ℚ) + 1/2,
    crackZ := (c.2.2 : ℚ) + 1/2,
    crackStage := min (pyInt (p.breakingProgress * (crack_stages : ℚ))) (crack_stages - 1) }

/-- The body-resolved block type used for placement: the hotbar's selection,
or DIRT when no hotbar is attached. -/
def selected_block (p : PlayerState) : BlockType :=
  match p.hotbar with
  | some h => h.get_selected_block
  | none => BlockType.DIRT

/-- The left-click (break) half of `_handle_block_interaction`: raycast; on
the tracked target advance progress by `dt / break_time`, update the crack
overlay, and at progress ≥ 1 replace the target with AIR, reset to idle and
start the 0.15 s cooldown; on a new target restart progress at 0; on a miss
or no press reset to idle. Returns state, world, and the `set_block` log. -/
def left_click_step (inp : Input) (w : World) (p : PlayerState) :
    PlayerState × World × List (Cell × BlockType) :=
  if inp.leftMouse then
    match inp.ray w with
    | some (hitPos, _) =>
      if p.breakingBlock = some hitPos then
        let p2 := { p with breakingProgress := p.breakingProgress + inp.dt / break_time }
        let p3 := update_crack_overlay p2 hitPos
        if p3.breakingProgress ≥ 1 then
          ({ reset_breaking p3 with clickCooldown := 3/20 },
           w.set_block hitPos BlockType.AIR, [(hitPos, BlockType.AIR)])
        else (p3, w, [])
      else
        (update_crack_overlay
          { p with breakingBlock := some hitPos, breakingProgress := 0 } hitPos,
         w, [])
    | none => (reset_breaking p, w, [])
  else (reset_breaking p, w, [])

/-- The right-click (place) half of `_handle_block_interaction`, gated by the
click cooldown: raycast; if the place cell is not one of the two
body-occupied cells, write the selected block type there and start the
0.25 s cooldown. -/
def right_click_step (inp : Input) (t : PlayerState × World × List (Cell × BlockType)) :
    PlayerState × World × List (Cell × BlockType) :=
  if t.1.clickCooldown > 0 then t
  else if inp.rightMouse then
    match inp.ray t.2.1 with
    | some (_, placePos) =>
      let playerBlocks : List Cell :=
        [(⌊t.1.px⌋, ⌊t.1.py⌋, ⌊t.1.pz⌋), (⌊t.1.px⌋, ⌊t.1.py + 1⌋, ⌊t.1.pz⌋)]
      if placePos ∉ playerBlocks then
        ({ t.1 with clickCooldown := 1/4 },
         t.2.1.set_block placePos (selected_block t.1),
         t.2.2 ++ [(placePos, selected_block t.1)])
      else t
    | none => t
  else t

/-- `_handle_block_interaction`: when the pointer is unlocked just reset the
breaking state; otherwise the break branch followed by the place branch. -/
def handle_block_interaction (inp : Input) (w : World) (p : PlayerState) :
    PlayerState × World × List (Cell × BlockType) :=
  if inp.mouseLocked = false then (reset_breaking p, w, [])
  else right_click_step inp (left_click_step inp w p)

/-- The handler pipeline of `Player.update` before the cooldown decrements:
unstick, mouse look, movement, gravity, block interaction. -/
def tick_core (m : MathFns) (inp : Input) (w : World) (p : PlayerState) :
    PlayerState × World × List (Cell × BlockType) :=
  handle_block_interaction inp w
    (handle_gravity m inp w (handle_movement m inp w
      (handle_mouse_look inp (unstick_from_blocks w p))))

/-- The two cooldown decrements at the end of `Player.update`. -/
def cooldown_step (inp : Input) (q : PlayerState) : PlayerState :=
  let q6 := if q.clickCooldown > 0 then
    { q with clickCooldown := q.clickCooldown - inp.dt } else q
  if q6.stuckCooldown > 0 then
    { q6 with stuckCooldown := q6.stuckCooldown - inp.dt } else q6

/-- `Player.update`: one tick — unstick, mouse look, movement, gravity, block
interaction, then the two cooldown decrements. -/
def update (m : MathFns) (inp : Input) (w : World) (p : PlayerState) :
    PlayerState × World × List (Cell × BlockType) :=
  let r := tick_core m inp w p
  (cooldown_step inp r.1, r.2.1, r.2.2)

/-- Iterated ticks with a fixed per-tick input, threading the world and
concatenating the write logs. -/
def run (m : MathFns) (inp : Input) :
    ℕ → World → PlayerState → PlayerState × World × List (Cell × BlockType)
  | 0, w, p => (p, w, [])
  | n+1, w, p =>
    let r := update m inp w p
    let s := run m inp n r.2.1 r.1
    (s.1, s.2.1, r.2.2 ++ s.2.2)

/-! ### Concrete fixtures used by the witness theorems -/

/-- A raycaster that never hits (used by fixtures not exercising the ray). -/
def noRay : World → Option (Cell × Cell) := fun _ => none

/-- An idle per-tick input: small frame time, pointer locked, nothing held. -/
def baseInput : Input :=
  { dt := 1/10, mouseLocked := true, mvx := 0, mvy := 0,
    keyW := false, keyA := false, keyS := false, keyD := false,
    space := false, leftMouse := false, rightMouse := false, ray := noRay }

/-- A plain player standing at (1/2, 1, 1/2). -/
def basePlayer : PlayerState :=
  { px := 1/2, py := 1, pz := 1/2, rotY := 0, pitch := 0, velY := 0,
    grounded := false, clickCooldown := 0, stuckCooldown := 0,
    breakingBlock := none, breakingProgress := 0, crackEnabled := false,
    crackStage := 0, crackX := 0, crackY := 0, crackZ := 0,
    hotbar := some ⟨0⟩ }

/-- A math-library stand-in returning 0 everywhere. -/
def zeroMath : MathFns :=
  { sqrt := fun _ => 0, sin := fun _ => 0, cos := fun _ => 0, radians := fun _ => 0 }

/-- A ground plane: every cell at height ≤ 0 is stone. -/
def flatWorld : World :=
  fun c => if c.2.1 ≤ 0 then BlockType.STONE else BlockType.AIR

/-- `get_block` at a cell triple. -/
def World.get (w : World) (c : Cell) : BlockType := w c

/-- A math-library stand-in with identity square root (so concrete jump
impulses are positive). -/
def litMath : MathFns :=
  { sqrt := fun q => q, sin := fun _ => 1, cos := fun _ => 1, radians := fun q => q }

/-! ### C8 — pitch clamp -/

/-- C8: after the tick's mouse-look update (pointer locked), the camera pitch
lies in [-90, 90] regardless of the magnitude or sign of the pointer delta,
while yaw accumulates unconstrained. -/
theorem mouse_look_pitch_clamped (inp : Input) (p : PlayerState)
    (hlock : inp.mouseLocked = true) :
    -90 ≤ (handle_mouse_look inp p).pitch ∧
    (handle_mouse_look inp p).pitch ≤ 90 ∧
    (handle_mouse_look inp p).rotY = p.rotY + inp.mvx * 40 := by
  simp only [handle_mouse_look, hlock]
  refine ⟨le_max_left _ _, max_le (by norm_num) (min_le_left _ _), rfl⟩

/-- Witness for C8 at a huge downward pointer delta. -/
theorem mouse_look_pitch_clamped_witness :
    -90 ≤ (handle_mouse_look { baseInput with mvy := 100000 } basePlayer).pitch ∧
    (handle_mouse_look { baseInput with mvy := 100000 } basePlayer).pitch ≤ 90 ∧
    (handle_mouse_look { baseInput with mvy := 100000 } basePlayer).rotY =
      basePlayer.rotY + ({ baseInput with mvy := 100000 } : Input).mvx * 40 :=
  mouse_look_pitch_clamped { baseInput with mvy := 100000 } basePlayer rfl

/-! ### C10 — hotbar selection invariant -/

/-- C10: a hotbar whose selected index is in [0, 8) always selects one of the
eight fixed non-AIR block types; `select_slot` with an out-of-range index
leaves the selection unchanged, and any `select_slot` keeps the index in
[0, 8). -/
theorem hotbar_selection_invariant (h : Hotbar)
    (hinv : 0 ≤ h.selectedIndex ∧ h.selectedIndex < 8) :
    (h.get_selected_block ∈ HOTBAR_BLOCKS ∧ h.get_selected_block ≠ BlockType.AIR) ∧
    (∀ i : ℤ, ¬(0 ≤ i ∧ i < 8) → h.select_slot i = h) ∧
    (∀ i : ℤ, 0 ≤ (h.select_slot i).selectedIndex ∧ (h.select_slot i).selectedIndex < 8) := by
  obtain ⟨idx⟩ := h
  obtain ⟨h0, h8⟩ := hinv
  simp only [Hotbar.selectedIndex] at h0 h8
  refine ⟨?_, ?_, ?_⟩
  · interval_cases idx <;> decide
  · intro i hi
    simp only [Hotbar.select_slot]
    rw [if_neg]
    simpa using hi
  · intro i
    have hlen : (HOTBAR_BLOCKS.length : ℤ) = 8 := by decide
    simp only [Hotbar.select_slot]
    split
    · rename_i hc
      exact ⟨hc.1, show i < 8 by omega⟩
    · exact ⟨h0, h8⟩

/-- Witness for C10 at selected index 3. -/
theorem hotbar_selection_invariant_witness :
    (0 ≤ (Hotbar.mk 3).selectedIndex ∧ (Hotbar.mk 3).selectedIndex < 8) ∧
    (Hotbar.mk 3).get_selected_block ≠ BlockType.AIR ∧
    (Hotbar.mk 3).select_slot (-1) = Hotbar.mk 3 ∧
    (Hotbar.mk 3).select_slot 99 = Hotbar.mk 3 :=
  ⟨by decide,
   (hotbar_selection_invariant ⟨3⟩ (by decide)).1.2,
   (hotbar_selection_invariant ⟨3⟩ (by decide)).2.1 (-1) (by decide),
   (hotbar_selection_invariant ⟨3⟩ (by decide)).2.1 99 (by decide)⟩

/-! ### C7 — unstick pass -/

/-- C7: the unstick pass never changes the horizontal position and never moves
the body down; whenever one of the three torso samples (0.1, 0.5, 1.0 above
the body position) is inside a non-AIR cell, the body is teleported strictly
upward, onto the top of the first such sample's block, and the vertical
velocity is zeroed. -/
theorem unstick_teleports_up (w : World) (p : PlayerState) :
    (unstick_from_blocks w p).px = p.px ∧
    (unstick_from_blocks w p).pz = p.pz ∧
    p.py ≤ (unstick_from_blocks w p).py ∧
    ((blockAt w p.px (p.py + 1/10) p.pz ≠ BlockType.AIR ∨
      blockAt w p.px (p.py + 1/2) p.pz ≠ BlockType.AIR ∨
      blockAt w p.px (p.py + 1) p.pz ≠ BlockType.AIR) →
      (unstick_from_blocks w p).velY = 0 ∧
      p.py < (unstick_from_blocks w p).py ∧
      ∃ c ∈ [(1:ℚ)/10, 1/2, 1],
        blockAt w p.px (p.py + c) p.pz ≠ BlockType.AIR ∧
        (unstick_from_blocks w p).py = (⌊p.py + c⌋ : ℚ) + 101/100) := by
  have hfl : ∀ c : ℚ, 0 < c → p.py < (⌊p.py + c⌋ : ℚ) + 101/100 := by
    intro c hc
    have h1 : p.py + c - 1 < (⌊p.py + c⌋ : ℚ) := Int.sub_one_lt_floor _
    linarith
  unfold unstick_from_blocks
  split_ifs with h1 h2 h3
  · exact ⟨rfl, rfl, le_of_lt (hfl (1/10) (by norm_num)), fun _ =>
      ⟨rfl, hfl (1/10) (by norm_num), 1/10, by simp, h1, rfl⟩⟩
  · exact ⟨rfl, rfl, le_of_lt (hfl (1/2) (by norm_num)), fun _ =>
      ⟨rfl, hfl (1/2) (by norm_num), 1/2, by simp, h2, rfl⟩⟩
  · exact ⟨rfl, rfl, le_of_lt (hfl 1 (by norm_num)), fun _ =>
      ⟨rfl, hfl 1 (by norm_num), 1, by simp, h3, rfl⟩⟩
  · refine ⟨rfl, rfl, le_refl _, fun hcoll => ?_⟩
    rcases hcoll with h | h | h
    · exact absurd h h1
    · exact absurd h h2
    · exact absurd h h3

/-- Witness for C7: a body whose torso is inside the ground plane is pushed
to the plane's top. -/
theorem unstick_teleports_up_witness :
    (unstick_from_blocks flatWorld { basePlayer with py := -1/2 }).velY = 0 ∧
    (-1/2 : ℚ) < (unstick_from_blocks flatWorld { basePlayer with py := -1/2 }).py ∧
    (unstick_from_blocks flatWorld { basePlayer with py := -1/2 }).px = (1/2 : ℚ) := by
  have h := unstick_teleports_up flatWorld { basePlayer with py := -1/2 }
  have hcoll : blockAt flatWorld ({ basePlayer with py := -1/2 } : PlayerState).px
      (({ basePlayer with py := -1/2 } : PlayerState).py + 1/10)
      ({ basePlayer with py := -1/2 } : PlayerState).pz ≠ BlockType.AIR := by
    norm_num [blockAt, World.get_block, flatWorld, basePlayer] <;> decide
  exact ⟨(h.2.2.2 (Or.inl hcoll)).1, (h.2.2.2 (Or.inl hcoll)).2.1, h.1⟩

/-! ### C3 — falling body snaps to the top of the obstructing block -/

/-- C3: on a tick where the integrated vertical velocity is ≤ 0 (moving down)
and the cell containing the candidate feet position is non-AIR, the gravity
handler sets the body's y exactly to floor(new_y) + 1, zeroes the vertical
velocity, marks the body grounded, and leaves x and z unchanged. -/
theorem gravity_feet_snap (m : MathFns) (inp : Input) (w : World) (p : PlayerState)
    (hdown : (gravity_vel m inp w p).1 ≤ 0)
    (hsolid : blockAt w p.px (p.py + (gravity_vel m inp w p).1 * inp.dt) p.pz ≠ BlockType.AIR) :
    (handle_gravity m inp w p).py = (⌊p.py + (gravity_vel m inp w p).1 * inp.dt⌋ : ℚ) + 1 ∧
    (handle_gravity m inp w p).velY = 0 ∧
    (handle_gravity m inp w p).grounded = true ∧
    (handle_gravity m inp w p).px = p.px ∧
    (handle_gravity m inp w p).pz = p.pz := by
  unfold handle_gravity
  rw [if_neg (not_lt.mpr hdown), if_pos hsolid]
  exact ⟨rfl, rfl, rfl, rfl, rfl⟩

/-- Witness for C3: falling at -7 onto the ground plane from y = 3/2 with
dt = 1/10 snaps the body exactly to y = 1. -/
theorem gravity_feet_snap_witness :
    (handle_gravity zeroMath baseInput flatWorld { basePlayer with py := 3/2, velY := -7 }).py = 1 ∧
    (handle_gravity zeroMath baseInput flatWorld { basePlayer with py := 3/2, velY := -7 }).velY = 0 ∧
    (handle_gravity zeroMath baseInput flatWorld { basePlayer with py := 3/2, velY := -7 }).grounded = true := by
  have hv : (gravity_vel zeroMath baseInput flatWorld { basePlayer with py := 3/2, velY := -7 }).1 = -19/2 := by
    norm_num [gravity_vel, ground_check, blockAt, World.get_block, flatWorld, basePlayer,
      baseInput, gravity, zeroMath]
  have h := gravity_feet_snap zeroMath baseInput flatWorld { basePlayer with py := 3/2, velY := -7 }
    (by rw [hv]; norm_num)
    (by rw [hv]; norm_num [blockAt, World.get_block, flatWorld, basePlayer, baseInput] <;> decide)
  refine ⟨?_, h.2.1, h.2.2.1⟩
  rw [h.1, hv]
  norm_num [basePlayer, baseInput]

/-! ### C4 — jump impulse -/

/-- C4: on a tick where the grounded probe (cell 0.1 below the body) is solid
and the jump key is held, the vertical velocity is set from the closed form
sqrt(2 · gravity · jump_height) (then integrated by the same tick's gravity
step), and the body ends the tick airborne (grounded = false); stated for any
head-clear, genuinely-upward tick. -/
theorem gravity_jump_impulse (m : MathFns) (inp : Input) (w : World) (p : PlayerState)
    (hg : ground_check w p = true) (hs : inp.space = true)
    (hup : 0 < m.sqrt (2 * gravity * jump_height) - gravity * inp.dt)
    (hhead : blockAt w p.px
        ((p.py + (m.sqrt (2 * gravity * jump_height) - gravity * inp.dt) * inp.dt) + height)
        p.pz = BlockType.AIR) :
    (handle_gravity m inp w p).velY = m.sqrt (2 * gravity * jump_height) - gravity * inp.dt ∧
    (handle_gravity m inp w p).grounded = false ∧
    (handle_gravity m inp w p).py =
      p.py + (m.sqrt (2 * gravity * jump_height) - gravity * inp.dt) * inp.dt := by
  have hv : gravity_vel m inp w p =
      (m.sqrt (2 * gravity * jump_height) - gravity * inp.dt, false) := by
    unfold gravity_vel
    rw [hg, hs]
    simp
  unfold handle_gravity
  rw [hv]
  rw [if_pos hup, if_neg (by simpa using hhead)]
  exact ⟨rfl, rfl, rfl⟩

/-- Witness for C4: standing on the ground plane with the jump key held and an
identity square root, the tick ends airborne with velocity 75 - 25·dt. -/
theorem gravity_jump_impulse_witness :
    (handle_gravity litMath { baseInput with space := true } flatWorld basePlayer).velY = 145/2 ∧
    (handle_gravity litMath { baseInput with space := true } flatWorld basePlayer).grounded = false := by
  have h := gravity_jump_impulse litMath { baseInput with space := true } flatWorld basePlayer
    (by norm_num [ground_check, blockAt, World.get_block, flatWorld, basePlayer] <;> decide)
    rfl
    (by norm_num [litMath, gravity, jump_height, baseInput])
    (by norm_num [litMath, gravity, jump_height, baseInput, height, basePlayer, blockAt,
      World.get_block, flatWorld] <;> decide)
  refine ⟨?_, h.2.1⟩
  rw [h.1]
  norm_num [litMath, gravity, jump_height, baseInput]

/-! ### Frame lemmas: which fields each handler can touch -/

theorem unstick_pres (w : World) (p : PlayerState) :
    (unstick_from_blocks w p).px = p.px ∧
    (unstick_from_blocks w p).pz = p.pz ∧
    (unstick_from_blocks w p).grounded = p.grounded ∧
    (unstick_from_blocks w p).clickCooldown = p.clickCooldown ∧
    (unstick_from_blocks w p).stuckCooldown = p.stuckCooldown ∧
    (unstick_from_blocks w p).breakingBlock = p.breakingBlock ∧
    (unstick_from_blocks w p).breakingProgress = p.breakingProgress ∧
    (unstick_from_blocks w p).crackEnabled = p.crackEnabled ∧
    (unstick_from_blocks w p).hotbar = p.hotbar := by
  unfold unstick_from_blocks
  split_ifs <;> simp

theorem look_pres (inp : Input) (p : PlayerState) :
    (handle_mouse_look inp p).px = p.px ∧
    (handle_mouse_look inp p).py = p.py ∧
    (handle_mouse_look inp p).pz = p.pz ∧
    (handle_mouse_look inp p).velY = p.velY ∧
    (handle_mouse_look inp p).grounded = p.grounded ∧
    (handle_mouse_look inp p).clickCooldown = p.clickCooldown ∧
    (handle_mouse_look inp p).stuckCooldown = p.stuckCooldown ∧
    (handle_mouse_look inp p).breakingBlock = p.breakingBlock ∧
    (handle_mouse_look inp p).breakingProgress = p.breakingProgress ∧
    (handle_mouse_look inp p).crackEnabled = p.crackEnabled ∧
    (handle_mouse_look inp p).hotbar = p.hotbar := by
  unfold handle_mouse_look
  split_ifs <;> simp

theorem movement_pres (m : MathFns) (inp : Input) (w : World) (p : PlayerState) :
    (handle_movement m inp w p).rotY = p.rotY ∧
    (handle_movement m inp w p).pitch = p.pitch ∧
    (handle_movement m inp w p).velY = p.velY ∧
    (handle_movement m inp w p).grounded = p.grounded ∧
    (handle_movement m inp w p).clickCooldown = p.clickCooldown ∧
    (handle_movement m inp w p).breakingBlock = p.breakingBlock ∧
    (handle_movement m inp w p).breakingProgress = p.breakingProgress ∧
    (handle_movement m inp w p).crackEnabled = p.crackEnabled ∧
    (handle_movement m inp w p).hotbar = p.hotbar := by
  refine ⟨?_, ?_, ?_, ?_, ?_, ?_, ?_, ?_, ?_⟩ <;>
    simp only [handle_movement, apply_ite PlayerState.rotY, apply_ite PlayerState.pitch,
      apply_ite PlayerState.velY, apply_ite PlayerState.grounded,
      apply_ite PlayerState.clickCooldown, apply_ite PlayerState.breakingBlock,
      apply_ite PlayerState.breakingProgress, apply_ite PlayerState.crackEnabled,
      apply_ite PlayerState.hotbar] <;> simp

theorem gravity_pres (m : MathFns) (inp : Input) (w : World) (p : PlayerState) :
    (handle_gravity m inp w p).px = p.px ∧
    (handle_gravity m inp w p).pz = p.pz ∧
    (handle_gravity m inp w p).rotY = p.rotY ∧
    (handle_gravity m inp w p).pitch = p.pitch ∧
    (handle_gravity m inp w p).clickCooldown = p.clickCooldown ∧
    (handle_gravity m inp w p).stuckCooldown = p.stuckCooldown ∧
    (handle_gravity m inp w p).breakingBlock = p.breakingBlock ∧
    (handle_gravity m inp w p).breakingProgress = p.breakingProgress ∧
    (handle_gravity m inp w p).crackEnabled = p.crackEnabled ∧
    (handle_gravity m inp w p).hotbar = p.hotbar := by
  refine ⟨?_, ?_, ?_, ?_, ?_, ?_, ?_, ?_, ?_, ?_⟩ <;>
    simp only [handle_gravity, apply_ite PlayerState.px, apply_ite PlayerState.pz,
      apply_ite PlayerState.rotY, apply_ite PlayerState.pitch,
      apply_ite PlayerState.clickCooldown, apply_ite PlayerState.stuckCooldown,
      apply_ite PlayerState.breakingBlock, apply_ite PlayerState.breakingProgress,
      apply_ite PlayerState.crackEnabled, apply_ite PlayerState.hotbar] <;> simp

theorem left_click_step_pres (inp : Input) (w : World) (p : PlayerState) :
    (left_click_step inp w p).1.px = p.px ∧
    (left_click_step inp w p).1.py = p.py ∧
    (left_click_step inp w p).1.pz = p.pz ∧
    (left_click_step inp w p).1.rotY = p.rotY ∧
    (left_click_step inp w p).1.pitch = p.pitch ∧
    (left_click_step inp w p).1.velY = p.velY ∧
    (left_click_step inp w p).1.grounded = p.grounded ∧
    (left_click_step inp w p).1.stuckCooldown = p.stuckCooldown ∧
    (left_click_step inp w p).1.hotbar = p.hotbar := by
  unfold left_click_step
  split
  · split
    · split
      · simp only [update_crack_overlay]
        split_ifs with h
        · simp [reset_breaking]
        · simp
      · simp [update_crack_overlay]
    · simp [reset_breaking]
  · simp [reset_breaking]

theorem right_click_step_pres (inp : Input)
    (t : PlayerState × World × List (Cell × BlockType)) :
    (right_click_step inp t).1.px = t.1.px ∧
    (right_click_step inp t).1.py = t.1.py ∧
    (right_click_step inp t).1.pz = t.1.pz ∧
    (right_click_step inp t).1.rotY = t.1.rotY ∧
    (right_click_step inp t).1.pitch = t.1.pitch ∧
    (right_click_step inp t).1.velY = t.1.velY ∧
    (right_click_step inp t).1.grounded = t.1.grounded ∧
    (right_click_step inp t).1.stuckCooldown = t.1.stuckCooldown ∧
    (right_click_step inp t).1.breakingBlock = t.1.breakingBlock ∧
    (right_click_step inp t).1.breakingProgress = t.1.breakingProgress ∧
    (right_click_step inp t).1.crackEnabled = t.1.crackEnabled ∧
    (right_click_step inp t).1.hotbar = t.1.hotbar := by
  unfold right_click_step
  split
  · simp
  · split
    · split
      · dsimp only
        split_ifs with h
        · simp
        · simp
      · simp
    · simp

theorem interaction_pres (inp : Input) (w : World) (p : PlayerState) :
    (handle_block_interaction inp w p).1.px = p.px ∧
    (handle_block_interaction inp w p).1.py = p.py ∧
    (handle_block_interaction inp w p).1.pz = p.pz ∧
    (handle_block_interaction inp w p).1.velY = p.velY ∧
    (handle_block_interaction inp w p).1.grounded = p.grounded ∧
    (handle_block_interaction inp w p).1.stuckCooldown = p.stuckCooldown ∧
    (handle_block_interaction inp w p).1.hotbar = p.hotbar := by
  unfold handle_block_interaction
  split
  · simp [reset_breaking]
  · obtain ⟨r1, r2, r3, _, _, r6, r7, r8, _, _, _, r12⟩ :=
      right_click_step_pres inp (left_click_step inp w p)
    obtain ⟨l1, l2, l3, _, _, l6, l7, l8, l9⟩ := left_click_step_pres inp w p
    exact ⟨r1.trans l1, r2.trans l2, r3.trans l3, r6.trans l6, r7.trans l7,
      r8.trans l8, r12.trans l9⟩

/-! ### C6 — breaking resets on release or miss -/

/-- C6: on a tick where the primary action is not held, or it is held but the
raycast misses, the breaking state resets to idle (no tracked target,
progress 0, crack overlay disabled); and on a press with a hit while idle the
new target starts at progress 0 — progress never survives a release. -/
theorem break_state_reset_on_release_or_miss (inp : Input) (w : World)
    (p : PlayerState) (h0 pl0 : Cell) :
    ((inp.leftMouse = false ∨ inp.ray w = none) →
      (handle_block_interaction inp w p).1.breakingBlock = none ∧
      (handle_block_interaction inp w p).1.breakingProgress = 0 ∧
      (handle_block_interaction inp w p).1.crackEnabled = false) ∧
    (inp.mouseLocked = true → inp.leftMouse = true → inp.ray w = some (h0, pl0) →
      p.breakingBlock = none →
      (handle_block_interaction inp w p).1.breakingBlock = some h0 ∧
      (handle_block_interaction inp w p).1.breakingProgress = 0) := by
  constructor
  · intro hrel
    unfold handle_block_interaction
    split
    · simp [reset_breaking]
    · have hL : left_click_step inp w p = (reset_breaking p, w, []) := by
        unfold left_click_step
        rcases hrel with h | h
        · rw [if_neg (by simp [h])]
        · split
          · rw [h]
          · rfl
      rw [hL]
      obtain ⟨_, _, _, _, _, _, _, _, b9, b10, b11, _⟩ :=
        right_click_step_pres inp (reset_breaking p, w, [])
      rw [b9, b10, b11]
      simp [reset_breaking]
  · intro hlock hleft hray hbb
    unfold handle_block_interaction
    rw [if_neg (by simp [hlock])]
    have hL : left_click_step inp w p =
        (update_crack_overlay
          { p with breakingBlock := some h0, breakingProgress := 0 } h0, w, []) := by
      unfold left_click_step
      rw [if_pos hleft, hray]
      simp [hbb]
    rw [hL]
    obtain ⟨_, _, _, _, _, _, _, _, b9, b10, _, _⟩ :=
      right_click_step_pres inp
        (update_crack_overlay
          { p with breakingBlock := some h0, breakingProgress := 0 } h0, w, [])
    rw [b9, b10]
    simp [update_crack_overlay]

/-- Witness for C6: a release tick clears a half-broken target, and a fresh
press on a hit starts at progress 0. -/
theorem break_state_reset_witness :
    ((handle_block_interaction baseInput flatWorld
        { basePlayer with
            breakingBlock := some (0, 0, 0),
            breakingProgress := 1/2,
            crackEnabled := true }).1.breakingBlock = none ∧
     (handle_block_interaction baseInput flatWorld
        { basePlayer with
            breakingBlock := some (0, 0, 0),
            breakingProgress := 1/2,
            crackEnabled := true }).1.breakingProgress = 0 ∧
     (handle_block_interaction baseInput flatWorld
        { basePlayer with
            breakingBlock := some (0, 0, 0),
            breakingProgress := 1/2,
            crackEnabled := true }).1.crackEnabled = false) ∧
    ((handle_block_interaction
        { baseInput with
            leftMouse := true,
            ray := fun _ => some ((1, 2, 3), (1, 3, 3)) } flatWorld
        basePlayer).1.breakingBlock = some (1, 2, 3) ∧
     (handle_block_interaction
        { baseInput with
            leftMouse := true,
            ray := fun _ => some ((1, 2, 3), (1, 3, 3)) } flatWorld
        basePlayer).1.breakingProgress = 0) :=
  ⟨(break_state_reset_on_release_or_miss baseInput flatWorld
      { basePlayer with
          breakingBlock := some (0, 0, 0),
          breakingProgress := 1/2,
          crackEnabled := true } (0, 0, 0) (0, 0, 0)).1 (Or.inl rfl),
   (break_state_reset_on_release_or_miss
      { baseInput with
          leftMouse := true,
          ray := fun _ => some ((1, 2, 3), (1, 3, 3)) } flatWorld
      basePlayer (1, 2, 3) (1, 3, 3)).2 rfl rfl rfl rfl⟩

/-! ### C2 — placement rejects body-occupied cells -/

/-- C2: on a place tick (pointer locked, break action not held, cooldown
expired, place action held, raycast hit): if the place cell is one of the two
cells the body occupies, nothing is written and the world is unchanged;
otherwise the hotbar's selected block type is written into the place cell and
the 0.25 s cooldown starts. -/
theorem place_block_policy (inp : Input) (w : World) (p : PlayerState)
    (hit place : Cell)
    (hlock : inp.mouseLocked = true) (hleft : inp.leftMouse = false)
    (hcd : p.clickCooldown ≤ 0) (hright : inp.rightMouse = true)
    (hray : inp.ray w = some (hit, place)) :
    (place ∈ [((⌊p.px⌋ : ℤ), ⌊p.py⌋, ⌊p.pz⌋), ((⌊p.px⌋ : ℤ), ⌊p.py + 1⌋, ⌊p.pz⌋)] →
      (handle_block_interaction inp w p).2.1 = w ∧
      (handle_block_interaction inp w p).2.2 = []) ∧
    (place ∉ [((⌊p.px⌋ : ℤ), ⌊p.py⌋, ⌊p.pz⌋), ((⌊p.px⌋ : ℤ), ⌊p.py + 1⌋, ⌊p.pz⌋)] →
      (handle_block_interaction inp w p).2.1 = w.set_block place (selected_block p) ∧
      (handle_block_interaction inp w p).2.2 = [(place, selected_block p)] ∧
      (handle_block_interaction inp w p).1.clickCooldown = 1/4) := by
  have hL : left_click_step inp w p = (reset_breaking p, w, []) := by
    unfold left_click_step
    rw [if_neg (by simp [hleft])]
  have hsel : selected_block (reset_breaking p) = selected_block p := rfl
  unfold handle_block_interaction
  rw [if_neg (by simp [hlock]), hL]
  unfold right_click_step
  rw [if_neg (by simp [reset_breaking]; exact hcd), if_pos hright]
  simp only [reset_breaking, hray]
  constructor
  · intro hmem
    rw [if_neg (not_not_intro hmem)]
    exact ⟨rfl, rfl⟩
  · intro hmem
    rw [if_pos hmem]
    exact ⟨rfl, rfl, rfl⟩

/-- Witness for C2: placing at a free cell writes the hotbar selection
(GRASS); aiming the place cell into the body cell is a silent no-op. -/
theorem place_block_policy_witness :
    ((handle_block_interaction
        { baseInput with
            rightMouse := true,
            ray := fun _ => some ((0, 0, 0), (0, 3, 0)) } flatWorld basePlayer).2.2 =
      [((0, 3, 0), BlockType.GRASS)]) ∧
    ((handle_block_interaction
        { baseInput with
            rightMouse := true,
            ray := fun _ => some ((0, 0, 0), (0, 1, 0)) } flatWorld basePlayer).2.2 = []) ∧
    ((handle_block_interaction
        { baseInput with
            rightMouse := true,
            ray := fun _ => some ((0, 0, 0), (0, 1, 0)) } flatWorld basePlayer).2.1 =
      flatWorld) := by
  have hsel : selected_block basePlayer = BlockType.GRASS := rfl
  have h1 := (place_block_policy
      { baseInput with
          rightMouse := true,
          ray := fun _ => some ((0, 0, 0), (0, 3, 0)) } flatWorld basePlayer
      (0, 0, 0) (0, 3, 0) rfl rfl (by norm_num [basePlayer]) rfl rfl).2
      (by norm_num [basePlayer])
  have h2 := (place_block_policy
      { baseInput with
          rightMouse := true,
          ray := fun _ => some ((0, 0, 0), (0, 1, 0)) } flatWorld basePlayer
      (0, 0, 0) (0, 1, 0) rfl rfl (by norm_num [basePlayer]) rfl rfl).1
      (by norm_num [basePlayer])
  refine ⟨?_, h2.2, h2.1⟩
  rw [h1.2.1, hsel]

/-! ### C9 — the anti-stuck nudge fires only when wedged, and arms a cooldown -/

/-- C9: the 0.5-unit upward nudge is the only way `_handle_movement` changes
the body's height, and it happens exactly on ticks where movement was
attempted, both horizontal axes were rejected, the body was grounded, the
stuck cooldown had expired and the raised position is collision-free; firing
it raises the body by exactly 0.5 and restarts the 0.5 s stuck cooldown. -/
theorem movement_nudge_only_when_wedged (m : MathFns) (inp : Input) (w : World)
    (p : PlayerState) :
    ((handle_movement m inp w p).py ≠ p.py →
      vec_length m (move_dir inp).1 0 (move_dir inp).2 ≠ 0 ∧
      check_collision w (p.px + (move_velocity m inp p).1) p.py p.pz = true ∧
      check_collision w p.px p.py (p.pz + (move_velocity m inp p).2) = true ∧
      p.grounded = true ∧
      p.stuckCooldown ≤ 0 ∧
      check_collision w p.px (p.py + 1/2) p.pz = false ∧
      (handle_movement m inp w p).py = p.py + 1/2 ∧
      (handle_movement m inp w p).stuckCooldown = 1/2 ∧
      (handle_movement m inp w p).px = p.px ∧
      (handle_movement m inp w p).pz = p.pz) ∧
    (vec_length m (move_dir inp).1 0 (move_dir inp).2 ≠ 0 →
      check_collision w (p.px + (move_velocity m inp p).1) p.py p.pz = true →
      check_collision w p.px p.py (p.pz + (move_velocity m inp p).2) = true →
      p.grounded = true →
      p.stuckCooldown ≤ 0 →
      check_collision w p.px (p.py + 1/2) p.pz = false →
      (handle_movement m inp w p).py = p.py + 1/2 ∧
      (handle_movement m inp w p).stuckCooldown = 1/2) := by
  by_cases h0 : vec_length m (move_dir inp).1 0 (move_dir inp).2 = 0
  · constructor
    · intro hne
      exfalso
      apply hne
      unfold handle_movement
      rw [if_pos h0]
    · intro hv
      exact absurd h0 hv
  · have key : (handle_movement m inp w p).py = p.py ∨
        (check_collision w (p.px + (move_velocity m inp p).1) p.py p.pz = true ∧
         check_collision w p.px p.py (p.pz + (move_velocity m inp p).2) = true ∧
         p.grounded = true ∧
         p.stuckCooldown ≤ 0 ∧
         check_collision w p.px (p.py + 1/2) p.pz = false ∧
         handle_movement m inp w p =
           { p with py := p.py + 1/2, stuckCooldown := 1/2 }) := by
      unfold handle_movement
      rw [if_neg h0]
      dsimp only
      cases hcx : check_collision w (p.px + (move_velocity m inp p).1) p.py p.pz
      · refine Or.inl ?_
        simp only [hcx, Bool.false_eq_true, if_false, Bool.false_and,
          apply_ite PlayerState.py, ite_self]
      · simp only [hcx, eq_self_iff_true, if_true, Bool.true_and]
        cases hcz : check_collision w p.px p.py (p.pz + (move_velocity m inp p).2)
        · refine Or.inl ?_
          simp only [hcz, Bool.false_eq_true, if_false, Bool.false_and,
            apply_ite PlayerState.py, ite_self]
        · simp only [hcz, eq_self_iff_true, if_true, Bool.true_and]
          cases hg : p.grounded
          · refine Or.inl ?_
            simp only [hg, Bool.false_eq_true, if_false, Bool.false_and,
              apply_ite PlayerState.py, ite_self]
          · simp only [hg, Bool.true_and]
            by_cases hsd : p.stuckCooldown ≤ 0
            · rw [if_pos (by simpa using hsd)]
              cases hup : check_collision w p.px (p.py + 1/2) p.pz
              · exact Or.inr ⟨trivial, trivial, trivial, hsd, rfl,
                  by simp only [hup, Bool.false_eq_true, if_false]⟩
              · exact Or.inl (by simp only [hup, eq_self_iff_true, if_true])
            · rw [if_neg (by simpa using hsd)]
              exact Or.inl rfl
    have heval : check_collision w (p.px + (move_velocity m inp p).1) p.py p.pz = true →
        check_collision w p.px p.py (p.pz + (move_velocity m inp p).2) = true →
        p.grounded = true →
        p.stuckCooldown ≤ 0 →
        check_collision w p.px (p.py + 1/2) p.pz = false →
        handle_movement m inp w p = { p with py := p.py + 1/2, stuckCooldown := 1/2 } := by
      intro c1 c2 c3 c4 c5
      unfold handle_movement
      rw [if_neg h0]
      dsimp only
      simp only [c1, eq_self_iff_true, if_true, c2, c3, Bool.true_and]
      rw [if_pos (by simpa using c4)]
      simp only [c5, Bool.false_eq_true, if_false]
    constructor
    · intro hne
      rcases key with hpy | ⟨c1, c2, c3, c4, c5, heq⟩
      · exact absurd hpy hne
      · exact ⟨h0, c1, c2, c3, c4, c5, by simp [heq], by simp [heq],
          by simp [heq], by simp [heq]⟩
    · intro _ c1 c2 c3 c4 c5
      have h := heval c1 c2 c3 c4 c5
      exact ⟨by simp [h], by simp [h]⟩

/-- A vertical one-cell shaft: stone everywhere at height ≤ 0, and stone at
heights 1..2 except in the column x = 0, z = 0. -/
def wedgeWorld : World :=
  fun c => if c.2.1 ≤ 0 ∨ (c.2.1 ≤ 2 ∧ ¬(c.1 = 0 ∧ c.2.2 = 0)) then
    BlockType.STONE else BlockType.AIR

/-- Witness for C9: a grounded body wedged at the bottom of the shaft, walking
diagonally into the wall, is nudged up by exactly 0.5 and the stuck cooldown
restarts at 0.5 s. -/
theorem movement_nudge_witness :
    (handle_movement litMath { baseInput with keyW := true, dt := 2/5 } wedgeWorld
       { basePlayer with grounded := true }).py = 3/2 ∧
    (handle_movement litMath { baseInput with keyW := true, dt := 2/5 } wedgeWorld
       { basePlayer with grounded := true }).stuckCooldown = 1/2 := by
  have hmv : move_velocity litMath { baseInput with keyW := true, dt := 2/5 }
      { basePlayer with grounded := true } = (1, 1) := by
    norm_num [move_velocity, move_dir, normalized, vec_length, litMath, baseInput,
      basePlayer, speed]
  have h := (movement_nudge_only_when_wedged litMath
      { baseInput with keyW := true, dt := 2/5 } wedgeWorld
      { basePlayer with grounded := true }).2
    (by norm_num [vec_length, move_dir, litMath, baseInput])
    (by rw [hmv]
        norm_num [check_collision, collision_offsets, blockAt, World.get_block,
          wedgeWorld, basePlayer, half_width, height] <;> decide)
    (by rw [hmv]
        norm_num [check_collision, collision_offsets, blockAt, World.get_block,
          wedgeWorld, basePlayer, half_width, height] <;> decide)
    rfl
    (by norm_num [basePlayer])
    (by norm_num [check_collision, collision_offsets, blockAt, World.get_block,
          wedgeWorld, basePlayer, half_width, height] <;> decide)
  constructor
  · rw [h.1]
    norm_num [basePlayer]
  · exact h.2

/-! ### More frame lemmas: cooldown decrements and idle interaction -/

theorem cooldown_step_pres (inp : Input) (q : PlayerState) :
    (cooldown_step inp q).px = q.px ∧
    (cooldown_step inp q).py = q.py ∧
    (cooldown_step inp q).pz = q.pz ∧
    (cooldown_step inp q).rotY = q.rotY ∧
    (cooldown_step inp q).pitch = q.pitch ∧
    (cooldown_step inp q).velY = q.velY ∧
    (cooldown_step inp q).grounded = q.grounded ∧
    (cooldown_step inp q).breakingBlock = q.breakingBlock ∧
    (cooldown_step inp q).breakingProgress = q.breakingProgress ∧
    (cooldown_step inp q).crackEnabled = q.crackEnabled ∧
    (cooldown_step inp q).hotbar = q.hotbar := by
  unfold cooldown_step
  dsimp only
  split_ifs <;> simp

theorem cooldown_step_click (inp : Input) (q : PlayerState) :
    (cooldown_step inp q).clickCooldown =
      if q.clickCooldown > 0 then q.clickCooldown - inp.dt else q.clickCooldown := by
  unfold cooldown_step
  dsimp only
  split_ifs <;> simp_all

theorem left_click_step_no_left (inp : Input) (w : World) (p : PlayerState)
    (hlm : inp.leftMouse = false) :
    left_click_step inp w p = (reset_breaking p, w, []) := by
  unfold left_click_step
  rw [if_neg (by simp [hlm])]

theorem right_click_step_no_right (inp : Input)
    (t : PlayerState × World × List (Cell × BlockType))
    (hrm : inp.rightMouse = false) :
    right_click_step inp t = t := by
  unfold right_click_step
  rw [hrm]
  split_ifs <;> simp_all

theorem interaction_idle (inp : Input) (w : World) (q : PlayerState)
    (hlm : inp.leftMouse = false) (hrm : inp.rightMouse = false) :
    handle_block_interaction inp w q = (reset_breaking q, w, []) := by
  unfold handle_block_interaction
  split
  · rfl
  · rw [left_click_step_no_left inp w q hlm, right_click_step_no_right inp _ hrm]

/-! ### C5 — a standing body keeps constant height -/

/-- One standing tick: a body with its feet exactly on top of a solid block
(integer height k, solid cell below, the body cells at k and k + 1 empty),
zero vertical velocity, and no movement or jump keys held, ends the full tick
at exactly the same position with vertical velocity still 0; with no mouse
buttons held the tick also leaves the world untouched. -/
theorem standing_tick (m : MathFns) (inp : Input) (w : World) (p : PlayerState)
    (k : ℤ)
    (hW : inp.keyW = false) (hA : inp.keyA = false)
    (hS : inp.keyS = false) (hD : inp.keyD = false)
    (hsp : inp.space = false) (hsqrt0 : m.sqrt 0 = 0)
    (hy : p.py = (k : ℚ)) (hv : p.velY = 0)
    (hbelow : w.get_block ⌊p.px⌋ (k - 1) ⌊p.pz⌋ ≠ BlockType.AIR)
    (hbody0 : w.get_block ⌊p.px⌋ k ⌊p.pz⌋ = BlockType.AIR)
    (hbody1 : w.get_block ⌊p.px⌋ (k + 1) ⌊p.pz⌋ = BlockType.AIR) :
    (update m inp w p).1.px = p.px ∧
    (update m inp w p).1.py = p.py ∧
    (update m inp w p).1.pz = p.pz ∧
    (update m inp w p).1.velY = 0 ∧
    (inp.leftMouse = false → inp.rightMouse = false →
      (update m inp w p).2.1 = w ∧ (update m inp w p).2.2 = []) := by
  have hb1 : blockAt w p.px (p.py + 1/10) p.pz = BlockType.AIR := by
    unfold blockAt
    rw [hy, show (⌊((k : ℤ) : ℚ) + 1/10⌋ : ℤ) = k from by
      rw [Int.floor_int_add]; norm_num]
    exact hbody0
  have hb2 : blockAt w p.px (p.py + 1/2) p.pz = BlockType.AIR := by
    unfold blockAt
    rw [hy, show (⌊((k : ℤ) : ℚ) + 1/2⌋ : ℤ) = k from by
      rw [Int.floor_int_add]; norm_num]
    exact hbody0
  have hb3 : blockAt w p.px (p.py + 1) p.pz = BlockType.AIR := by
    unfold blockAt
    rw [hy, show (⌊((k : ℤ) : ℚ) + 1⌋ : ℤ) = k + 1 from by
      rw [Int.floor_int_add]; norm_num]
    exact hbody1
  have hu : unstick_from_blocks w p = p := by
    unfold unstick_from_blocks
    rw [if_neg (not_not_intro hb1), if_neg (not_not_intro hb2),
      if_neg (not_not_intro hb3)]
  obtain ⟨l1, l2, l3, l4, _, _, _, _, _, _, _⟩ := look_pres inp p
  have hmv0 : vec_length m (move_dir inp).1 0 (move_dir inp).2 = 0 := by
    unfold vec_length move_dir
    rw [hW, hA, hS, hD]
    norm_num [hsqrt0]
  have hmov : handle_movement m inp w (handle_mouse_look inp p) =
      handle_mouse_look inp p := by
    unfold handle_movement
    rw [if_pos hmv0]
  have hgc : ground_check w (handle_mouse_look inp p) = true := by
    unfold ground_check blockAt
    rw [l1, l2, l3, hy,
      show ((k : ℤ) : ℚ) - 1/10 = ((k - 1 : ℤ) : ℚ) + 9/10 from by push_cast; ring,
      show (⌊((k - 1 : ℤ) : ℚ) + 9/10⌋ : ℤ) = k - 1 from by
        rw [Int.floor_int_add]; norm_num]
    exact decide_eq_true hbelow
  have hgv : gravity_vel m inp w (handle_mouse_look inp p) = (0, true) := by
    unfold gravity_vel
    rw [hgc, hsp]
    simp [l4, hv]
  have hb0 : blockAt w (handle_mouse_look inp p).px (handle_mouse_look inp p).py
      (handle_mouse_look inp p).pz = BlockType.AIR := by
    unfold blockAt
    rw [l1, l2, l3, hy, Int.floor_intCast]
    exact hbody0
  have hgrav : handle_gravity m inp w (handle_mouse_look inp p) =
      { handle_mouse_look inp p with velY := 0, grounded := true } := by
    unfold handle_gravity
    rw [hgv]
    dsimp only
    rw [zero_mul, add_zero]
    rw [if_neg (by norm_num : ¬((0 : ℚ) > 0))]
    rw [if_neg (not_not_intro hb0)]
  have hcore : tick_core m inp w p =
      handle_block_interaction inp w
        { handle_mouse_look inp p with velY := 0, grounded := true } := by
    unfold tick_core
    rw [hu, hmov, hgrav]
  obtain ⟨i1, i2, i3, i4, _, _, _⟩ := interaction_pres inp w
    { handle_mouse_look inp p with velY := 0, grounded := true }
  obtain ⟨c1, c2, c3, _, _, c6, _, _, _, _, _⟩ := cooldown_step_pres inp
    (handle_block_interaction inp w
      { handle_mouse_look inp p with velY := 0, grounded := true }).1
  have hupd : update m inp w p =
      (cooldown_step inp (tick_core m inp w p).1,
       (tick_core m inp w p).2.1, (tick_core m inp w p).2.2) := rfl
  refine ⟨?_, ?_, ?_, ?_, ?_⟩
  · rw [hupd]
    dsimp only
    rw [hcore]
    rw [c1, i1]
    exact l1
  · rw [hupd]
    dsimp only
    rw [hcore]
    rw [c2, i2]
    exact l2
  · rw [hupd]
    dsimp only
    rw [hcore]
    rw [c3, i3]
    exact l3
  · rw [hupd]
    dsimp only
    rw [hcore]
    rw [c6, i4]
  · intro hlm hrm
    rw [hupd]
    dsimp only
    rw [hcore, interaction_idle inp w _ hlm hrm]
    exact ⟨rfl, rfl⟩

/-- C5: a body starting a tick resting exactly on top of a solid block (zero
vertical velocity, body sample cells empty) with no movement keys and no jump
key held ends the tick at the identical position with vertical velocity
clamped to 0 ≥ 0; with the mouse buttons also idle, its height is constant
across arbitrarily many such ticks. -/
theorem standing_body_constant (m : MathFns) (inp : Input) (w : World)
    (p : PlayerState) (k : ℤ)
    (hW : inp.keyW = false) (hA : inp.keyA = false)
    (hS : inp.keyS = false) (hD : inp.keyD = false)
    (hsp : inp.space = false) (hsqrt0 : m.sqrt 0 = 0)
    (hy : p.py = (k : ℚ)) (hv : p.velY = 0)
    (hbelow : w.get_block ⌊p.px⌋ (k - 1) ⌊p.pz⌋ ≠ BlockType.AIR)
    (hbody0 : w.get_block ⌊p.px⌋ k ⌊p.pz⌋ = BlockType.AIR)
    (hbody1 : w.get_block ⌊p.px⌋ (k + 1) ⌊p.pz⌋ = BlockType.AIR) :
    ((update m inp w p).1.px = p.px ∧
     (update m inp w p).1.py = p.py ∧
     (update m inp w p).1.pz = p.pz ∧
     (update m inp w p).1.velY = 0) ∧
    (inp.leftMouse = false → inp.rightMouse = false → ∀ n : ℕ,
      (run m inp n w p).1.px = p.px ∧
      (run m inp n w p).1.py = p.py ∧
      (run m inp n w p).1.pz = p.pz ∧
      (run m inp n w p).1.velY = 0) := by
  have hst0 := standing_tick m inp w p k hW hA hS hD hsp hsqrt0 hy hv
    hbelow hbody0 hbody1
  refine ⟨⟨hst0.1, hst0.2.1, hst0.2.2.1, hst0.2.2.2.1⟩, ?_⟩
  intro hlm hrm
  have main : ∀ n : ℕ, ∀ q : PlayerState,
      q.px = p.px → q.py = p.py → q.pz = p.pz → q.velY = 0 →
      (run m inp n w q).1.px = p.px ∧ (run m inp n w q).1.py = p.py ∧
      (run m inp n w q).1.pz = p.pz ∧ (run m inp n w q).1.velY = 0 := by
    intro n
    induction n with
    | zero =>
      intro q h1 h2 h3 h4
      exact ⟨h1, h2, h3, h4⟩
    | succ n ih =>
      intro q h1 h2 h3 h4
      have hst := standing_tick m inp w q k hW hA hS hD hsp hsqrt0
        (by rw [h2, hy]) h4
        (by rw [h1, h3]; exact hbelow)
        (by rw [h1, h3]; exact hbody0)
        (by rw [h1, h3]; exact hbody1)
      have hw : (update m inp w q).2.1 = w := (hst.2.2.2.2 hlm hrm).1
      have hun : run m inp (n + 1) w q =
          ((run m inp n (update m inp w q).2.1 (update m inp w q).1).1,
           (run m inp n (update m inp w q).2.1 (update m inp w q).1).2.1,
           (update m inp w q).2.2 ++
            (run m inp n (update m inp w q).2.1 (update m inp w q).1).2.2) := rfl
      rw [hun]
      dsimp only
      rw [hw]
      exact ih (update m inp w q).1 (hst.1.trans h1) (hst.2.1.trans h2)
        (hst.2.2.1.trans h3) hst.2.2.2.1
  intro n
  exact main n p rfl rfl rfl hv

/-- Witness for C5: the base player standing on the ground plane does not move
over five idle ticks. -/
theorem standing_body_constant_witness :
    (run zeroMath baseInput 5 flatWorld basePlayer).1.py = basePlayer.py ∧
    (run zeroMath baseInput 5 flatWorld basePlayer).1.velY = 0 := by
  have h := (standing_body_constant zeroMath baseInput flatWorld basePlayer 1
      rfl rfl rfl rfl rfl rfl
      (by norm_num [basePlayer]) rfl
      (by norm_num [flatWorld, World.get_block, basePlayer] <;> decide)
      (by norm_num [flatWorld, World.get_block, basePlayer] <;> decide)
      (by norm_num [flatWorld, World.get_block, basePlayer] <;> decide)).2
    rfl rfl 5
  exact ⟨h.2.1, h.2.2.2⟩

/-! ### C1 — holding the break action replaces the target with AIR exactly once -/

theorem World.get_set_block (w : World) (c : Cell) (b : BlockType) :
    World.get (World.set_block w c b) c = b := by
  unfold World.get World.set_block
  simp

/-- The four handlers that run before block interaction in one tick. -/
def pipeline (m : MathFns) (inp : Input) (w : World) (p : PlayerState) :
    PlayerState :=
  handle_gravity m inp w (handle_movement m inp w
    (handle_mouse_look inp (unstick_from_blocks w p)))

theorem tick_core_eq (m : MathFns) (inp : Input) (w : World) (p : PlayerState) :
    tick_core m inp w p = handle_block_interaction inp w (pipeline m inp w p) := rfl

theorem pipeline_pres (m : MathFns) (inp : Input) (w : World) (p : PlayerState) :
    (pipeline m inp w p).breakingBlock = p.breakingBlock ∧
    (pipeline m inp w p).breakingProgress = p.breakingProgress ∧
    (pipeline m inp w p).clickCooldown = p.clickCooldown ∧
    (pipeline m inp w p).crackEnabled = p.crackEnabled ∧
    (pipeline m inp w p).hotbar = p.hotbar := by
  obtain ⟨_, _, _, _, gcc, _, gbb, gbp, gce, ghb⟩ :=
    gravity_pres m inp w (handle_movement m inp w
      (handle_mouse_look inp (unstick_from_blocks w p)))
  obtain ⟨_, _, _, _, mcc, mbb, mbp, mce, mhb⟩ :=
    movement_pres m inp w (handle_mouse_look inp (unstick_from_blocks w p))
  obtain ⟨_, _, _, _, _, lcc, _, lbb, lbp, lce, lhb⟩ :=
    look_pres inp (unstick_from_blocks w p)
  obtain ⟨_, _, _, ucc, _, ubb, ubp, uce, uhb⟩ := unstick_pres w p
  exact ⟨gbb.trans (mbb.trans (lbb.trans ubb)),
    gbp.trans (mbp.trans (lbp.trans ubp)),
    gcc.trans (mcc.trans (lcc.trans ucc)),
    gce.trans (mce.trans (lce.trans uce)),
    ghb.trans (mhb.trans (lhb.trans uhb))⟩

/-- Break branch, new target: the interaction retargets and restarts progress
at 0, with no world write. -/
theorem interaction_target (inp : Input) (w : World) (p : PlayerState)
    (hit place : Cell)
    (hlock : inp.mouseLocked = true) (hleft : inp.leftMouse = true)
    (hright : inp.rightMouse = false)
    (hray : inp.ray w = some (hit, place))
    (hbb : p.breakingBlock ≠ some hit) :
    (handle_block_interaction inp w p).1.breakingBlock = some hit ∧
    (handle_block_interaction inp w p).1.breakingProgress = 0 ∧
    (handle_block_interaction inp w p).1.clickCooldown = p.clickCooldown ∧
    (handle_block_interaction inp w p).2.1 = w ∧
    (handle_block_interaction inp w p).2.2 = [] := by
  have hL : left_click_step inp w p =
      (update_crack_overlay
        { p with breakingBlock := some hit, breakingProgress := 0 } hit, w, []) := by
    unfold left_click_step
    rw [if_pos hleft, hray]
    simp [hbb]
  unfold handle_block_interaction
  rw [if_neg (by simp [hlock]), hL, right_click_step_no_right inp _ hright]
  simp [update_crack_overlay]

/-- Break branch, same target, progress still short of 1: progress advances by
`dt / break_time`, with no world write. -/
theorem interaction_acc (inp : Input) (w : World) (p : PlayerState)
    (hit place : Cell)
    (hlock : inp.mouseLocked = true) (hleft : inp.leftMouse = true)
    (hright : inp.rightMouse = false)
    (hray : inp.ray w = some (hit, place))
    (hbb : p.breakingBlock = some hit)
    (hlt : p.breakingProgress + inp.dt / break_time < 1) :
    (handle_block_interaction inp w p).1.breakingBlock = some hit ∧
    (handle_block_interaction inp w p).1.breakingProgress =
      p.breakingProgress + inp.dt / break_time ∧
    (handle_block_interaction inp w p).1.clickCooldown = p.clickCooldown ∧
    (handle_block_interaction inp w p).2.1 = w ∧
    (handle_block_interaction inp w p).2.2 = [] := by
  have hL : left_click_step inp w p =
      (update_crack_overlay
        { p with breakingProgress := p.breakingProgress + inp.dt / break_time } hit,
       w, []) := by
    unfold left_click_step
    rw [if_pos hleft, hray]
    dsimp only
    rw [if_pos hbb]
    rw [if_neg (by simp [update_crack_overlay]; exact hlt)]
  unfold handle_block_interaction
  rw [if_neg (by simp [hlock]), hL, right_click_step_no_right inp _ hright]
  simp [update_crack_overlay, hbb]

/-- Break branch, same target, progress reaching 1: the target cell is set to
AIR (the single write of the tick), the breaking state resets and the 0.15 s
cooldown starts. -/
theorem interaction_fire (inp : Input) (w : World) (p : PlayerState)
    (hit place : Cell)
    (hlock : inp.mouseLocked = true) (hleft : inp.leftMouse = true)
    (hright : inp.rightMouse = false)
    (hray : inp.ray w = some (hit, place))
    (hbb : p.breakingBlock = some hit)
    (hge : 1 ≤ p.breakingProgress + inp.dt / break_time) :
    (handle_block_interaction inp w p).1.breakingBlock = none ∧
    (handle_block_interaction inp w p).1.breakingProgress = 0 ∧
    (handle_block_interaction inp w p).1.crackEnabled = false ∧
    (handle_block_interaction inp w p).1.clickCooldown = 3/20 ∧
    (handle_block_interaction inp w p).2.1 = World.set_block w hit BlockType.AIR ∧
    (handle_block_interaction inp w p).2.2 = [(hit, BlockType.AIR)] := by
  have hL : left_click_step inp w p =
      ({ reset_breaking (update_crack_overlay
          { p with breakingProgress := p.breakingProgress + inp.dt / break_time } hit)
          with clickCooldown := 3/20 },
       World.set_block w hit BlockType.AIR, [(hit, BlockType.AIR)]) := by
    unfold left_click_step
    rw [if_pos hleft, hray]
    dsimp only
    rw [if_pos hbb]
    rw [if_pos (by simp [update_crack_overlay]; exact hge)]
  unfold handle_block_interaction
  rw [if_neg (by simp [hlock]), hL]
  rw [right_click_step_no_right inp _ hright]
  simp [update_crack_overlay, reset_breaking]

/-- Break branch, no hit: the breaking state resets and nothing is written. -/
theorem interaction_miss (inp : Input) (w : World) (p : PlayerState)
    (hright : inp.rightMouse = false)
    (hray : inp.ray w = none) :
    (handle_block_interaction inp w p).1.breakingBlock = none ∧
    (handle_block_interaction inp w p).1.breakingProgress = 0 ∧
    (handle_block_interaction inp w p).1.crackEnabled = false ∧
    (handle_block_interaction inp w p).2.1 = w ∧
    (handle_block_interaction inp w p).2.2 = [] := by
  unfold handle_block_interaction
  split
  · simp [reset_breaking]
  · have hL : left_click_step inp w p = (reset_breaking p, w, []) := by
      unfold left_click_step
      split
      · rw [hray]
      · rfl
    rw [hL, right_click_step_no_right inp _ hright]
    simp [reset_breaking]

theorem run_succ (m : MathFns) (inp : Input) (n : ℕ) (w : World) (p : PlayerState) :
    run m inp (n + 1) w p =
      ((run m inp n (update m inp w p).2.1 (update m inp w p).1).1,
       (run m inp n (update m inp w p).2.1 (update m inp w p).1).2.1,
       (update m inp w p).2.2 ++
         (run m inp n (update m inp w p).2.1 (update m inp w p).1).2.2) := rfl

theorem run_add (m : MathFns) (inp : Input) (a b : ℕ) :
    ∀ (w : World) (p : PlayerState),
    run m inp (a + b) w p =
      ((run m inp b (run m inp a w p).2.1 (run m inp a w p).1).1,
       (run m inp b (run m inp a w p).2.1 (run m inp a w p).1).2.1,
       (run m inp a w p).2.2 ++
         (run m inp b (run m inp a w p).2.1 (run m inp a w p).1).2.2) := by
  induction a with
  | zero =>
    intro w p
    simp [run]
  | succ a ih =>
    intro w p
    have h1 : a + 1 + b = (a + b) + 1 := by omega
    rw [h1, run_succ, run_succ, ih]
    simp

/-- Tick-level version of `interaction_target`: a full tick that retargets. -/
theorem tick_target (m : MathFns) (inp : Input) (w : World) (p : PlayerState)
    (hit place : Cell)
    (hlock : inp.mouseLocked = true) (hleft : inp.leftMouse = true)
    (hright : inp.rightMouse = false)
    (hray : inp.ray w = some (hit, place))
    (hbb : p.breakingBlock ≠ some hit) :
    (update m inp w p).1.breakingBlock = some hit ∧
    (update m inp w p).1.breakingProgress = 0 ∧
    (update m inp w p).2.1 = w ∧
    (update m inp w p).2.2 = [] := by
  obtain ⟨pb, pp, _, _, _⟩ := pipeline_pres m inp w p
  have hint := interaction_target inp w (pipeline m inp w p) hit place hlock hleft
    hright hray (by rw [pb]; exact hbb)
  obtain ⟨_, _, _, _, _, _, _, cbb, cbp, _, _⟩ :=
    cooldown_step_pres inp (tick_core m inp w p).1
  have hupd : update m inp w p =
      (cooldown_step inp (tick_core m inp w p).1,
       (tick_core m inp w p).2.1, (tick_core m inp w p).2.2) := rfl
  refine ⟨?_, ?_, ?_, ?_⟩
  · rw [hupd]
    dsimp only
    rw [cbb, tick_core_eq]
    exact hint.1
  · rw [hupd]
    dsimp only
    rw [cbp, tick_core_eq]
    exact hint.2.1
  · rw [hupd]
    dsimp only
    rw [tick_core_eq]
    exact hint.2.2.2.1
  · rw [hupd]
    dsimp only
    rw [tick_core_eq]
    exact hint.2.2.2.2

/-- Tick-level version of `interaction_acc`: a full tick that advances
progress by `dt / break_time`. -/
theorem tick_acc (m : MathFns) (inp : Input) (w : World) (p : PlayerState)
    (hit place : Cell)
    (hlock : inp.mouseLocked = true) (hleft : inp.leftMouse = true)
    (hright : inp.rightMouse = false)
    (hray : inp.ray w = some (hit, place))
    (hbb : p.breakingBlock = some hit)
    (hlt : p.breakingProgress + inp.dt / break_time < 1) :
    (update m inp w p).1.breakingBlock = some hit ∧
    (update m inp w p).1.breakingProgress =
      p.breakingProgress + inp.dt / break_time ∧
    (update m inp w p).2.1 = w ∧
    (update m inp w p).2.2 = [] := by
  obtain ⟨pb, pp, _, _, _⟩ := pipeline_pres m inp w p
  have hint := interaction_acc inp w (pipeline m inp w p) hit place hlock hleft
    hright hray (by rw [pb]; exact hbb) (by rw [pp]; exact hlt)
  obtain ⟨_, _, _, _, _, _, _, cbb, cbp, _, _⟩ :=
    cooldown_step_pres inp (tick_core m inp w p).1
  have hupd : update m inp w p =
      (cooldown_step inp (tick_core m inp w p).1,
       (tick_core m inp w p).2.1, (tick_core m inp w p).2.2) := rfl
  refine ⟨?_, ?_, ?_, ?_⟩
  · rw [hupd]
    dsimp only
    rw [cbb, tick_core_eq]
    exact hint.1
  · rw [hupd]
    dsimp only
    rw [cbp, tick_core_eq]
    rw [hint.2.1, pp]
  · rw [hupd]
    dsimp only
    rw [tick_core_eq]
    exact hint.2.2.2.1
  · rw [hupd]
    dsimp only
    rw [tick_core_eq]
    exact hint.2.2.2.2

/-- Tick-level version of `interaction_fire`: the tick that replaces the
target with AIR, resets to idle and starts the re-trigger cooldown (already
decremented by this tick's dt). -/
theorem tick_fire (m : MathFns) (inp : Input) (w : World) (p : PlayerState)
    (hit place : Cell)
    (hlock : inp.mouseLocked = true) (hleft : inp.leftMouse = true)
    (hright : inp.rightMouse = false)
    (hray : inp.ray w = some (hit, place))
    (hbb : p.breakingBlock = some hit)
    (hge : 1 ≤ p.breakingProgress + inp.dt / break_time) :
    (update m inp w p).1.breakingBlock = none ∧
    (update m inp w p).1.breakingProgress = 0 ∧
    (update m inp w p).1.crackEnabled = false ∧
    (update m inp w p).1.clickCooldown = 3/20 - inp.dt ∧
    (update m inp w p).2.1 = World.set_block w hit BlockType.AIR ∧
    (update m inp w p).2.2 = [(hit, BlockType.AIR)] := by
  obtain ⟨pb, pp, _, _, _⟩ := pipeline_pres m inp w p
  have hint := interaction_fire inp w (pipeline m inp w p) hit place hlock hleft
    hright hray (by rw [pb]; exact hbb) (by rw [pp]; exact hge)
  obtain ⟨_, _, _, _, _, _, _, cbb, cbp, cce, _⟩ :=
    cooldown_step_pres inp (tick_core m inp w p).1
  have hupd : update m inp w p =
      (cooldown_step inp (tick_core m inp w p).1,
       (tick_core m inp w p).2.1, (tick_core m inp w p).2.2) := rfl
  refine ⟨?_, ?_, ?_, ?_, ?_, ?_⟩
  · rw [hupd]
    dsimp only
    rw [cbb, tick_core_eq]
    exact hint.1
  · rw [hupd]
    dsimp only
    rw [cbp, tick_core_eq]
    exact hint.2.1
  · rw [hupd]
    dsimp only
    rw [cce, tick_core_eq]
    exact hint.2.2.1
  · rw [hupd]
    dsimp only
    rw [cooldown_step_click, tick_core_eq]
    rw [hint.2.2.2.1, if_pos (by norm_num : (3:ℚ)/20 > 0)]
  · rw [hupd]
    dsimp only
    rw [tick_core_eq]
    exact hint.2.2.2.2.1
  · rw [hupd]
    dsimp only
    rw [tick_core_eq]
    exact hint.2.2.2.2.2

/-- Tick-level version of `interaction_miss`: a tick whose raycast misses
keeps the breaking state idle and writes nothing. -/
theorem tick_miss (m : MathFns) (inp : Input) (w : World) (p : PlayerState)
    (hright : inp.rightMouse = false)
    (hray : inp.ray w = none) :
    (update m inp w p).1.breakingBlock = none ∧
    (update m inp w p).1.breakingProgress = 0 ∧
    (update m inp w p).1.crackEnabled = false ∧
    (update m inp w p).2.1 = w ∧
    (update m inp w p).2.2 = [] := by
  have hint := interaction_miss inp w (pipeline m inp w p) hright hray
  obtain ⟨_, _, _, _, _, _, _, cbb, cbp, cce, _⟩ :=
    cooldown_step_pres inp (tick_core m inp w p).1
  have hupd : update m inp w p =
      (cooldown_step inp (tick_core m inp w p).1,
       (tick_core m inp w p).2.1, (tick_core m inp w p).2.2) := rfl
  refine ⟨?_, ?_, ?_, ?_, ?_⟩
  · rw [hupd]
    dsimp only
    rw [cbb, tick_core_eq]
    exact hint.1
  · rw [hupd]
    dsimp only
    rw [cbp, tick_core_eq]
    exact hint.2.1
  · rw [hupd]
    dsimp only
    rw [cce, tick_core_eq]
    exact hint.2.2.1
  · rw [hupd]
    dsimp only
    rw [tick_core_eq]
    exact hint.2.2.2.1
  · rw [hupd]
    dsimp only
    rw [tick_core_eq]
    exact hint.2.2.2.2

/-- While the break action is held on the same (still solid) target and
progress stays below 1, each tick adds `dt / break_time` to the progress and
writes nothing. -/
theorem run_acc (m : MathFns) (inp : Input) (hit place : Cell)
    (hlock : inp.mouseLocked = true) (hleft : inp.leftMouse = true)
    (hright : inp.rightMouse = false) (hdt : 0 < inp.dt)
    (hray : ∀ w : World, World.get w hit ≠ BlockType.AIR →
      inp.ray w = some (hit, place)) :
    ∀ (i : ℕ) (w : World) (p : PlayerState),
      p.breakingBlock = some hit →
      World.get w hit ≠ BlockType.AIR →
      p.breakingProgress + i * (inp.dt / break_time) < 1 →
      (run m inp i w p).1.breakingBlock = some hit ∧
      (run m inp i w p).1.breakingProgress =
        p.breakingProgress + i * (inp.dt / break_time) ∧
      (run m inp i w p).2.1 = w ∧
      (run m inp i w p).2.2 = [] := by
  intro i
  induction i with
  | zero =>
    intro w p h1 h2 h3
    exact ⟨h1, by simp [run], rfl, rfl⟩
  | succ i ih =>
    intro w p h1 h2 h3
    have hinc_pos : 0 < inp.dt / break_time := by
      apply div_pos hdt
      norm_num [break_time]
    have hcast : ((i + 1 : ℕ) : ℚ) = (i : ℚ) + 1 := by push_cast; ring
    have hige : (0 : ℚ) ≤ (i : ℚ) * (inp.dt / break_time) :=
      mul_nonneg (by positivity) (le_of_lt hinc_pos)
    rw [hcast] at h3
    have hlt : p.breakingProgress + inp.dt / break_time < 1 := by nlinarith
    have ht := tick_acc m inp w p hit place hlock hleft hright (hray w h2) h1 hlt
    have hih := ih (update m inp w p).2.1 (update m inp w p).1 ht.1
      (by rw [ht.2.2.1]; exact h2)
      (by rw [ht.2.1]; nlinarith)
    rw [run_succ]
    dsimp only
    refine ⟨hih.1, ?_, ?_, ?_⟩
    · rw [hih.2.1, ht.2.1, hcast]
      ring
    · rw [hih.2.2.1, ht.2.2.1]
    · rw [ht.2.2.2, hih.2.2.2]
      rfl

/-- After the target cell is AIR the raycast misses every tick, so the
breaking state stays idle and nothing further is written. -/
theorem run_post (m : MathFns) (inp : Input) (hit : Cell)
    (hright : inp.rightMouse = false)
    (hmiss : ∀ w : World, World.get w hit = BlockType.AIR → inp.ray w = none) :
    ∀ (n : ℕ) (w : World) (p : PlayerState),
      World.get w hit = BlockType.AIR →
      p.breakingBlock = none → p.breakingProgress = 0 → p.crackEnabled = false →
      (run m inp n w p).1.breakingBlock = none ∧
      (run m inp n w p).1.breakingProgress = 0 ∧
      (run m inp n w p).1.crackEnabled = false ∧
      (run m inp n w p).2.1 = w ∧
      (run m inp n w p).2.2 = [] := by
  intro n
  induction n with
  | zero =>
    intro w p hw h1 h2 h3
    exact ⟨h1, h2, h3, rfl, rfl⟩
  | succ n ih =>
    intro w p hw h1 h2 h3
    have ht := tick_miss m inp w p hright (hmiss w hw)
    have hih := ih (update m inp w p).2.1 (update m inp w p).1
      (by rw [ht.2.2.2.1]; exact hw) ht.1 ht.2.1 ht.2.2.1
    rw [run_succ]
    dsimp only
    refine ⟨hih.1, hih.2.1, hih.2.2.1, ?_, ?_⟩
    · rw [hih.2.2.2.1, ht.2.2.2.1]
    · rw [ht.2.2.2.2, hih.2.2.2.2]
      rfl

/-- C1: starting idle and holding the break action on a fixed target (the
raycast returns that cell while it is solid and misses once it is AIR, as the
voxel raycaster does), with per-tick progress increments `dt / break_time`
summing to 1 after exactly k accumulation ticks (k·dt ≥ break_time, minimal),
then over the whole held sequence — the targeting tick, the k accumulation
ticks, and any number n of further held ticks — exactly one `set_block`
happens, namely AIR at the target; the target cell reads AIR afterwards; the
breaking state is idle from the breaking tick on; and the breaking tick ends
with the 0.15 s re-trigger cooldown started (already decremented by that
tick's dt). -/
theorem break_block_exactly_once (m : MathFns) (inp : Input) (w0 : World)
    (p0 : PlayerState) (hit place : Cell) (k : ℕ)
    (hlock : inp.mouseLocked = true) (hleft : inp.leftMouse = true)
    (hright : inp.rightMouse = false) (hdt : 0 < inp.dt)
    (hray_hit : ∀ w : World, World.get w hit ≠ BlockType.AIR →
      inp.ray w = some (hit, place))
    (hray_miss : ∀ w : World, World.get w hit = BlockType.AIR → inp.ray w = none)
    (hw0 : World.get w0 hit ≠ BlockType.AIR)
    (hp0 : p0.breakingBlock = none)
    (hk1 : 1 ≤ (k : ℚ) * (inp.dt / break_time))
    (hk2 : ((k : ℚ) - 1) * (inp.dt / break_time) < 1) :
    (∀ n : ℕ,
      (run m inp (1 + k + n) w0 p0).2.2 = [(hit, BlockType.AIR)] ∧
      World.get (run m inp (1 + k + n) w0 p0).2.1 hit = BlockType.AIR ∧
      (run m inp (1 + k + n) w0 p0).1.breakingBlock = none ∧
      (run m inp (1 + k + n) w0 p0).1.breakingProgress = 0 ∧
      (run m inp (1 + k + n) w0 p0).1.crackEnabled = false) ∧
    (run m inp (1 + k) w0 p0).1.clickCooldown = 3/20 - inp.dt := by
  have hk_pos : 1 ≤ k := by
    by_contra hc
    push_neg at hc
    interval_cases k
    norm_num at hk1
  obtain ⟨j, rfl⟩ : ∃ j, k = j + 1 := ⟨k - 1, by omega⟩
  have hcastj : ((j + 1 : ℕ) : ℚ) = (j : ℚ) + 1 := by push_cast; ring
  rw [hcastj] at hk1 hk2
  -- tick 1: targeting
  have ht1 := tick_target m inp w0 p0 hit place hlock hleft hright
    (hray_hit w0 hw0) (by rw [hp0]; simp)
  have hrun1 : run m inp 1 w0 p0 =
      ((update m inp w0 p0).1, (update m inp w0 p0).2.1,
       (update m inp w0 p0).2.2 ++ []) := rfl
  -- j accumulation ticks
  have hacc := run_acc m inp hit place hlock hleft hright hdt hray_hit j
    (update m inp w0 p0).2.1 (update m inp w0 p0).1 ht1.1
    (by rw [ht1.2.2.1]; exact hw0)
    (by rw [ht1.2.1]; nlinarith)
  -- the breaking tick
  have htf := tick_fire m inp
    (run m inp j (update m inp w0 p0).2.1 (update m inp w0 p0).1).2.1
    (run m inp j (update m inp w0 p0).2.1 (update m inp w0 p0).1).1
    hit place hlock hleft hright
    (hray_hit _ (by rw [hacc.2.2.1, ht1.2.2.1]; exact hw0))
    hacc.1
    (by rw [hacc.2.1, ht1.2.1]; nlinarith)
  constructor
  · intro n
    -- the post-break ticks
    have hpost := run_post m inp hit hright hray_miss n
      (update m inp
        (run m inp j (update m inp w0 p0).2.1 (update m inp w0 p0).1).2.1
        (run m inp j (update m inp w0 p0).2.1 (update m inp w0 p0).1).1).2.1
      (update m inp
        (run m inp j (update m inp w0 p0).2.1 (update m inp w0 p0).1).2.1
        (run m inp j (update m inp w0 p0).2.1 (update m inp w0 p0).1).1).1
      (by rw [htf.2.2.2.2.1]; exact World.get_set_block _ _ _)
      htf.1 htf.2.1 htf.2.2.1
    have harr : 1 + (j + 1) + n = 1 + (j + (n + 1)) := by omega
    rw [harr, run_add m inp 1 (j + (n + 1)) w0 p0, hrun1]
    dsimp only
    rw [run_add m inp j (n + 1), run_succ]
    dsimp only
    refine ⟨?_, ?_, hpost.1, hpost.2.1, hpost.2.2.1⟩
    · rw [ht1.2.2.2, hacc.2.2.2, htf.2.2.2.2.2, hpost.2.2.2.2]
      rfl
    · rw [hpost.2.2.2.1, htf.2.2.2.2.1]
      exact World.get_set_block _ _ _
  · have harr0 : 1 + (j + 1) = 1 + (j + (0 + 1)) := by omega
    rw [harr0, run_add m inp 1 (j + (0 + 1)) w0 p0, hrun1]
    dsimp only
    rw [run_add m inp j (0 + 1), run_succ]
    dsimp only
    -- after the breaking tick, run 0 is the identity
    exact htf.2.2.2.1

/-- A single stone block at the origin cell. -/
def oneBlockWorld : World :=
  fun c => if c = (0, 0, 0) then BlockType.STONE else BlockType.AIR

/-- A raycaster staring at the origin cell: hits it while it is solid (placing
against its top), misses once it is AIR. -/
def breakRay : World → Option (Cell × Cell) :=
  fun w => if World.get w (0, 0, 0) ≠ BlockType.AIR then
    some ((0, 0, 0), (0, 1, 0)) else none

/-- Held-left-click input at 0.5 s per tick. -/
def breakInput : Input :=
  { baseInput with
      leftMouse := true,
      dt := 1/2,
      ray := breakRay }

/-- Witness for C1: with dt = 0.5 s one accumulation tick suffices (k = 1);
after 4 held ticks the log holds exactly one write — AIR at the origin — the
cell reads AIR, the breaking state is idle, and at the end of the breaking
tick (tick 2) the re-trigger cooldown reads 0.15 - dt. -/
theorem break_block_exactly_once_witness :
    (run zeroMath breakInput 4 oneBlockWorld basePlayer).2.2 =
      [((0, 0, 0), BlockType.AIR)] ∧
    World.get (run zeroMath breakInput 4 oneBlockWorld basePlayer).2.1 (0, 0, 0) =
      BlockType.AIR ∧
    (run zeroMath breakInput 4 oneBlockWorld basePlayer).1.breakingBlock = none ∧
    (run zeroMath breakInput 2 oneBlockWorld basePlayer).1.clickCooldown =
      3/20 - breakInput.dt := by
  have h := break_block_exactly_once zeroMath breakInput oneBlockWorld basePlayer
    (0, 0, 0) (0, 1, 0) 1 rfl rfl rfl
    (by norm_num [breakInput, baseInput])
    (by intro w hw
        show breakRay w = some ((0, 0, 0), (0, 1, 0))
        unfold breakRay
        rw [if_pos hw])
    (by intro w hw
        show breakRay w = none
        unfold breakRay
        rw [if_neg (not_not_intro hw)])
    (by decide)
    rfl
    (by norm_num [breakInput, baseInput, break_time])
    (by norm_num [breakInput, baseInput, break_time])
  exact ⟨(h.1 2).1, (h.1 2).2.1, (h.1 2).2.2.1, h.2⟩

end MC
